import Mathlib

/-!
Verification of the example chat server (src/example_chat.cpp).

Shallow embedding conventions:
- connection handles (HSteamNetConnection, HSteamListenSocket, HSteamNetPollGroup)
  are Nat, with the invalid handle being 0 as in the SDK headers;
- the connection registry (std::map<HSteamNetConnection, Client_t> m_mapClients,
  where Client_t carries no fields) is a List Nat of handles, kept Nodup as a
  std::map keyset is;
- strings (std::string) are List Char;
- side effects (sends, connection closes, log output) are reified as values
  returned by the embedded functions;
- code whose behaviour is undefined in C++ (an unchecked iterator dereference)
  returns Option, with none for the undefined case.
-/

namespace ExampleChat

/-- C isspace over the standard execution character set: space, tab, newline,
vertical tab, form feed, carriage return.  Used by the trim lambdas at
src/example_chat.cpp lines 181-192. -/
def c_isspace (c : Char) : Bool :=
  c = ' ' || c = '\t' || c = '\n' || c = '\x0b' || c = '\x0c' || c = '\r'

/-- Embedding of ltrim (src/example_chat.cpp line 181): erase from the front up
to the first non-space character. -/
def ltrim (s : List Char) : List Char :=
  s.dropWhile c_isspace

/-- Embedding of rtrim (src/example_chat.cpp line 188): erase from the first
non-space character found from the back, to the end. -/
def rtrim (s : List Char) : List Char :=
  (s.reverse.dropWhile c_isspace).reverse

/-- Both trims as applied in LocalUserInput_GetNext (lines 204-205): ltrim then
rtrim. -/
def trim (s : List Char) : List Char :=
  rtrim (ltrim s)

/-- Embedding of the enqueue step of the input reader thread body
(src/example_chat.cpp lines 167-169): the line read by fgets is pushed onto the
back of queueUserInput as-is. -/
def LocalUserInput_ReaderStep (line : List Char) (q : List (List Char)) :
    List (List Char) :=
  q ++ [line]

/-- Embedding of LocalUserInput_GetNext (src/example_chat.cpp lines 196-210):
pop lines from the front of the queue, trimming each, until a line that is
non-empty after trimming is found (returned together with the remaining queue)
or the queue is exhausted. -/
def LocalUserInput_GetNext : List (List Char) → Option (List Char) × List (List Char)
  | [] => (none, [])
  | l :: rest =>
      let r := trim l
      if r = [] then LocalUserInput_GetNext rest
      else (some r, rest)

/-- Connection states from ESteamNetworkingConnectionState, restricted to the
ones the server's switch statement distinguishes. -/
inductive EConnState
  | None
  | Connecting
  | Connected
  | ClosedByPeer
  | ProblemDetectedLocally
  deriving DecidableEq, Repr

/-- Data of a SteamNetConnectionStatusChangedCallback_t that the handler reads:
the connection handle, the new state (m_info.m_eState) and the old state
(m_eOldState). -/
structure ConnEvent where
  hConn : Nat
  state : EConnState
  oldState : EConnState
  deriving DecidableEq, Repr

/-- Arguments of a CloseConnection call: handle, reason code, whether a debug
string was passed (vs nullptr), and the linger flag. -/
structure CloseCall where
  conn : Nat
  reason : Nat
  hasDebug : Bool
  linger : Bool
  deriving DecidableEq, Repr

/-- Embedding of SendStringToAllClients (src/example_chat.cpp lines 290-297):
iterate m_mapClients and send to every registered handle other than the
excluded one.  The returned list is the sequence of send attempts (recipient
handles), in registry iteration order. -/
def SendStringToAllClients (mapClients : List Nat) (except : Nat) : List Nat :=
  mapClients.filter (fun c => c ≠ except)

/-- Data of one received message that PollIncomingMessages reads: the sender
connection handle (m_conn) and the payload. -/
structure IncomingMsg where
  conn : Nat
  payload : List Char
  deriving DecidableEq, Repr

/-- Embedding of the per-message body of PollIncomingMessages
(src/example_chat.cpp lines 318-332): the registry lookup of the sender handle
is dereferenced without a comparison against end(), so when the sender is
absent the behaviour is undefined — modelled as none.  When the sender is
present the dereferenced key equals the sender handle and it is passed as the
exclusion to the broadcast; the result is the list of send attempts. -/
def processIncomingMessage (mapClients : List Nat) (msg : IncomingMsg) :
    Option (List Nat) :=
  if msg.conn ∈ mapClients then some (SendStringToAllClients mapClients msg.conn)
  else none

/-- Embedding of OnSteamNetConnectionStatusChanged (src/example_chat.cpp lines
354-445).  Inputs: the registry, the event, and the results of the two
transport calls made on the Connecting path (AcceptConnection returning
k_EResultOK, SetConnectionPollGroup returning true).  Output: the new registry
and the list of CloseConnection calls made.

None: ignored.  ClosedByPeer / ProblemDetectedLocally: the record is erased
only when the old state was Connected, and CloseConnection(h, 0, nullptr,
false) is always called.  Connecting: the record is inserted
(m_mapClients[h] = Client_t()), then on AcceptConnection failure or
SetConnectionPollGroup failure the connection is closed with
CloseConnection(h, 0, nullptr, false) and the case breaks out (the record is
not erased).  On success the case falls through into the Connected case, which
does nothing.  Connected: ignored. -/
def OnSteamNetConnectionStatusChanged (mapClients : List Nat) (ev : ConnEvent)
    (acceptOk pollGroupOk : Bool) : List Nat × List CloseCall :=
  match ev.state with
  | .None => (mapClients, [])
  | .ClosedByPeer | .ProblemDetectedLocally =>
      let mapClients' :=
        if ev.oldState = .Connected then mapClients.erase ev.hConn else mapClients
      (mapClients', [⟨ev.hConn, 0, false, false⟩])
  | .Connecting =>
      let mapClients' := List.insert ev.hConn mapClients
      if acceptOk = false then (mapClients', [⟨ev.hConn, 0, false, false⟩])
      else if pollGroupOk = false then (mapClients', [⟨ev.hConn, 0, false, false⟩])
      else (mapClients', [])
  | .Connected => (mapClients, [])

/-- Modelled from the spec: the transport collaborator is an external library
and its source is not part of this repository.  Per the spec's external
interface contract (section 6) and connection lifecycle: a Connecting event
whose acceptance and poll-group assignment both succeed leaves the connection
accepted and open; if either fails the handler closes it, so it is not open; a
ClosedByPeer / ProblemDetectedLocally event means the connection is closed
(and the handler additionally closes the local handle), so it leaves the
transport's open-accepted set; None and Connected events do not change the
set. -/
def transportOpenAfter (openConns : List Nat) (ev : ConnEvent)
    (acceptOk pollGroupOk : Bool) : List Nat :=
  match ev.state with
  | .Connecting =>
      if acceptOk && pollGroupOk then List.insert ev.hConn openConns else openConns
  | .ClosedByPeer | .ProblemDetectedLocally => openConns.erase ev.hConn
  | _ => openConns

/-- Command string "/quit" compared against by PollLocalUserInput (line 342). -/
def quitCmd : List Char := '/' :: 'q' :: 'u' :: 'i' :: 't' :: []

/-- Log text of the quit branch (line 345). -/
def msgShuttingDown : List Char := "Shutting down server".toList

/-- Log text of the unrecognized-command branch (line 350). -/
def msgUnknownCommand : List Char :=
  "The server only knows one command: \x27/quit\x27".toList

/-- Embedding of PollLocalUserInput (src/example_chat.cpp lines 337-352)
together with the queue consumption done by its calls to
LocalUserInput_GetNext.  State threaded through: the g_bQuit flag, the
registry m_mapClients (never touched by this function's body), and the input
queue.  Returns (new quit flag, new registry, remaining queue, log messages in
order).  The while loop tests the quit flag first, then pulls the next trimmed
non-blank line; the quit command sets the flag, logs, and breaks; any other
line logs the unrecognized-command diagnostic and loops. -/
def PollLocalUserInput (quit : Bool) (mapClients : List Nat) :
    List (List Char) → Bool × List Nat × List (List Char) × List (List Char)
  | [] => (quit, mapClients, [], [])
  | l :: rest =>
      if quit then (quit, mapClients, l :: rest, [])
      else
        let cmd := trim l
        if cmd = [] then PollLocalUserInput quit mapClients rest
        else if cmd = quitCmd then (true, mapClients, rest, [msgShuttingDown])
        else
          let r := PollLocalUserInput quit mapClients rest
          (r.1, r.2.1, r.2.2.1, msgUnknownCommand :: r.2.2.2)

/-- Observable actions of the shutdown path of ChatServer::Run
(src/example_chat.cpp lines 249-269). -/
inductive Effect
  | sendMsg (conn : Nat) (msg : List Char)
  | closeConn (c : CloseCall)
  | closeListenSocket
  | destroyPollGroup
  deriving DecidableEq, Repr

/-- Final notice sent to each client on shutdown (line 257). -/
def goodbyeMsg : List Char := "Server is shutting down.  Goodbye.".toList

/-- Embedding of the for loop over m_mapClients in the shutdown path (lines
251-262): for each registered client, in registry order, send the goodbye
string then CloseConnection(h, 0, "Server Shutdown", true) — reason 0, a debug
string present, linger true. -/
def closeAllLoop : List Nat → List Effect
  | [] => []
  | c :: rest =>
      Effect.sendMsg c goodbyeMsg :: Effect.closeConn ⟨c, 0, true, true⟩ ::
        closeAllLoop rest

/-- Embedding of the whole shutdown path of ChatServer::Run (lines 249-269):
the per-client loop, then m_mapClients.clear(), then CloseListenSocket, then
DestroyPollGroup.  Returns the effect trace and the final registry. -/
def shutdownServer (mapClients : List Nat) : List Effect × List Nat :=
  (closeAllLoop mapClients ++ [Effect.closeListenSocket, Effect.destroyPollGroup], [])

/-- Invalid listen socket handle (k_HSteamListenSocket_Invalid = 0). -/
def k_HSteamListenSocket_Invalid : Nat := 0

/-- Invalid poll group handle (k_HSteamNetPollGroup_Invalid = 0). -/
def k_HSteamNetPollGroup_Invalid : Nat := 0

/-- Outcome of the startup sequence of ChatServer::Run. -/
inductive StartupResult
  | fatalError
  | listening
  deriving DecidableEq, Repr

/-- Embedding of the startup checks of ChatServer::Run (src/example_chat.cpp
lines 233-239): if CreateListenSocketIP returned the invalid handle, FatalError
fires; else if CreatePollGroup returned the invalid handle, FatalError fires;
else the server proceeds to listen. -/
def runStartup (hListenSock hPollGroup : Nat) : StartupResult :=
  if hListenSock = k_HSteamListenSocket_Invalid then .fatalError
  else if hPollGroup = k_HSteamNetPollGroup_Invalid then .fatalError
  else .listening

/-- Action taken on the return value of ReceiveMessagesOnPollGroup
(src/example_chat.cpp lines 309-314). -/
inductive ReceiveAction
  | breakLoop
  | fatalError
  | processMessage
  deriving DecidableEq, Repr

/-- Embedding of the dispatch on numMsgs in PollIncomingMessages (lines
311-314): zero breaks the loop, negative is a fatal error, positive proceeds
to process the message. -/
def receiveDispatch (numMsgs : Int) : ReceiveAction :=
  if numMsgs = 0 then .breakLoop
  else if numMsgs < 0 then .fatalError
  else .processMessage

/-- Debug output severities the example distinguishes. -/
inductive DebugOutputType
  | Msg
  | Bug
  deriving DecidableEq, Repr

/-- Embedding of DebugOutput (src/example_chat.cpp lines 54-65): returns
whether the process is terminated (NukeProcess is called exactly when the
severity is Bug). -/
def debugOutputNukesProcess : DebugOutputType → Bool
  | .Bug => true
  | .Msg => false

/-- Embedding of FatalError (lines 67-78): it forwards its formatted text to
DebugOutput at severity Bug; the value is whether the process is terminated. -/
def fatalErrorNukesProcess : Bool :=
  debugOutputNukesProcess .Bug

/-! Helper lemmas about dropWhile and the trims. -/

theorem dropWhile_dropWhile (p : Char → Bool) (l : List Char) :
    (l.dropWhile p).dropWhile p = l.dropWhile p := by
  induction l with
  | nil => rfl
  | cons a t ih => cases h : p a <;> simp [List.dropWhile_cons, h, ih]

theorem dropWhile_append_of_forall (p : Char → Bool) (l₁ l₂ : List Char)
    (h : ∀ a ∈ l₁, p a = true) :
    (l₁ ++ l₂).dropWhile p = l₂.dropWhile p := by
  induction l₁ with
  | nil => rfl
  | cons a t ih =>
      simp only [List.cons_append, List.dropWhile_cons, h a (by simp)]
      exact ih (fun b hb => h b (by simp [hb]))

theorem dropWhile_append_singleton (p : Char → Bool) (a : Char) (l : List Char)
    (ha : p a = false) :
    (l ++ [a]).dropWhile p = l.dropWhile p ++ [a] := by
  induction l with
  | nil => simp [List.dropWhile_cons, ha]
  | cons b w ih => cases hb : p b <;> simp [List.dropWhile_cons, hb, ih]

theorem dropWhile_append_of_ne_nil (p : Char → Bool) (A B : List Char)
    (h : A.dropWhile p ≠ []) :
    (A ++ B).dropWhile p = A.dropWhile p ++ B := by
  induction A with
  | nil => exact absurd rfl h
  | cons a t ih =>
      cases ha : p a
      · simp [List.dropWhile_cons, ha]
      · simp only [List.dropWhile_cons, ha, if_true] at h
        simp [List.dropWhile_cons, ha, ih h]

theorem length_dropWhile_le (p : Char → Bool) (l : List Char) :
    (l.dropWhile p).length ≤ l.length := by
  induction l with
  | nil => simp
  | cons a t ih =>
      cases h : p a
      · simp [List.dropWhile_cons, h]
      · simp only [List.dropWhile_cons, h, if_true, List.length_cons]
        omega

theorem ltrim_ltrim (s : List Char) : ltrim (ltrim s) = ltrim s :=
  dropWhile_dropWhile c_isspace s

theorem rtrim_rtrim (s : List Char) : rtrim (rtrim s) = rtrim s := by
  unfold rtrim
  rw [List.reverse_reverse, dropWhile_dropWhile]

theorem ltrim_cons_of_false (a : Char) (u : List Char) (ha : c_isspace a = false) :
    ltrim (a :: u) = a :: u := by
  simp [ltrim, List.dropWhile_cons, ha]

theorem ltrim_fixed_head (a : Char) (u : List Char) (h : ltrim (a :: u) = a :: u) :
    c_isspace a = false := by
  by_contra hc
  have ha : c_isspace a = true := by
    cases hh : c_isspace a
    · exact absurd hh hc
    · rfl
  unfold ltrim at h
  rw [List.dropWhile_cons, if_pos ha] at h
  have hlen := congrArg List.length h
  have hle := length_dropWhile_le c_isspace u
  simp at hlen
  omega

theorem rtrim_of_ltrim_fixed (t : List Char) (h : ltrim t = t) :
    ltrim (rtrim t) = rtrim t := by
  cases t with
  | nil => rfl
  | cons a u =>
      have ha : c_isspace a = false := ltrim_fixed_head a u h
      have key : rtrim (a :: u) = a :: (u.reverse.dropWhile c_isspace).reverse := by
        unfold rtrim
        rw [List.reverse_cons, dropWhile_append_singleton c_isspace a u.reverse ha,
          List.reverse_append]
        simp
      rw [key]
      exact ltrim_cons_of_false a _ ha

theorem ltrim_rtrim_ltrim (s : List Char) :
    ltrim (rtrim (ltrim s)) = rtrim (ltrim s) :=
  rtrim_of_ltrim_fixed (ltrim s) (ltrim_ltrim s)

theorem trim_trim (s : List Char) : trim (trim s) = trim s := by
  unfold trim
  rw [ltrim_rtrim_ltrim, rtrim_rtrim]

theorem ltrim_ws_append (pad s : List Char) (h : ∀ c ∈ pad, c_isspace c = true) :
    ltrim (pad ++ s) = ltrim s :=
  dropWhile_append_of_forall c_isspace pad s h

theorem rtrim_append_ws (s pad : List Char) (h : ∀ c ∈ pad, c_isspace c = true) :
    rtrim (s ++ pad) = rtrim s := by
  unfold rtrim
  rw [List.reverse_append, dropWhile_append_of_forall c_isspace pad.reverse s.reverse
    (fun c hc => h c (List.mem_reverse.mp hc))]

theorem trim_pad (pad padr L : List Char)
    (h : ∀ c ∈ pad, c_isspace c = true) (h' : ∀ c ∈ padr, c_isspace c = true) :
    trim (pad ++ L ++ padr) = trim L := by
  unfold trim
  rw [List.append_assoc, ltrim_ws_append pad (L ++ padr) h]
  by_cases hL : ltrim L = []
  · have hall : ∀ a ∈ L, c_isspace a = true := by
      simpa [ltrim, List.dropWhile_eq_nil_iff] using hL
    have : ltrim (L ++ padr) = [] := by
      simp only [ltrim, List.dropWhile_eq_nil_iff]
      intro x hx
      rcases List.mem_append.mp hx with h1 | h2
      · exact hall x h1
      · exact h' x h2
    rw [this, hL]
  · rw [show ltrim (L ++ padr) = ltrim L ++ padr from
      dropWhile_append_of_ne_nil c_isspace L padr hL]
    exact rtrim_append_ws (ltrim L) padr h'

/-! Claims about the input reader and console processing. -/

/-- C6 counterexample: the claim that a line which is empty after trimming is
never enqueued is false — the reader thread pushes the raw line
(src/example_chat.cpp line 168), so the whitespace-only line consisting of a
single blank is enqueued verbatim. -/
theorem claim_C6_counterexample :
    trim (' ' :: []) = [] ∧
    LocalUserInput_ReaderStep (' ' :: []) [] = ((' ' :: []) :: []) := by
  constructor
  · rfl
  · rfl

/-- C6 (amended): lines are enqueued raw by the reader thread; trimming and
blank-line discarding happen in LocalUserInput_GetNext at dequeue time, so the
consumer never receives a line that is blank or still carries leading or
trailing whitespace. -/
theorem claim_C6_consumer_never_blank_or_untrimmed
    (q : List (List Char)) (r : List Char) (rest : List (List Char))
    (h : LocalUserInput_GetNext q = (some r, rest)) :
    r ≠ [] ∧ trim r = r := by
  induction q with
  | nil => simp [LocalUserInput_GetNext] at h
  | cons l t ih =>
      rw [LocalUserInput_GetNext] at h
      by_cases hb : trim l = []
      · rw [if_pos hb] at h
        exact ih h
      · rw [if_neg hb] at h
        have hr : trim l = r := by
          have := congrArg Prod.fst h
          simpa using this
        subst hr
        exact ⟨hb, trim_trim l⟩

/-- Witness for C6 (amended): on the queue holding a blank line and then a
line with surrounding whitespace, GetNext skips the blank and returns the
trimmed text, which is non-empty and a fixed point of trim. -/
theorem claim_C6_consumer_never_blank_or_untrimmed_witness :
    ('h' :: 'i' :: []) ≠ ([] : List Char) ∧ trim ('h' :: 'i' :: []) = 'h' :: 'i' :: [] :=
  claim_C6_consumer_never_blank_or_untrimmed
    ((' ' :: []) :: (' ' :: 'h' :: 'i' :: ' ' :: []) :: []) ('h' :: 'i' :: []) []
    (by rfl)

/-- C7: processing an input line surrounded by extra whitespace has exactly
the same effect (quit flag, registry, remaining queue, diagnostics) as
processing the bare line, since LocalUserInput_GetNext trims before the
command comparison in PollLocalUserInput. -/
theorem claim_C7_whitespace_insensitive (mapClients : List Nat)
    (pad padr L : List Char) (q : List (List Char))
    (h : ∀ c ∈ pad, c_isspace c = true) (h' : ∀ c ∈ padr, c_isspace c = true) :
    PollLocalUserInput false mapClients ((pad ++ L ++ padr) :: q) =
      PollLocalUserInput false mapClients (L :: q) := by
  rw [PollLocalUserInput, PollLocalUserInput]
  simp only [Bool.false_eq_true, if_false, trim_pad pad padr L h h']

/-- Witness for C7: the line made of "/quit" surrounded by two blanks on each
side is processed exactly as the bare quit command, and it does set the
shutdown flag. -/
theorem claim_C7_whitespace_insensitive_witness :
    PollLocalUserInput false []
        ((' ' :: ' ' :: '/' :: 'q' :: 'u' :: 'i' :: 't' :: ' ' :: ' ' :: []) :: []) =
      PollLocalUserInput false [] (quitCmd :: []) ∧
    (PollLocalUserInput false [] (quitCmd :: [])).1 = true := by
  constructor
  · exact claim_C7_whitespace_insensitive [] (' ' :: ' ' :: [])
      (' ' :: ' ' :: []) quitCmd [] (by decide) (by decide)
  · rfl

/-- C9: a console line that trims to something other than the quit command
leaves the shutdown flag and the registry unchanged and produces exactly one
diagnostic message; a line trimming to the quit command sets the shutdown
flag, logs once, and stops console processing for the tick, leaving the rest
of the queue unconsumed. -/
theorem claim_C9_console_frame (mapClients : List Nat) (L : List Char)
    (q : List (List Char)) :
    (trim L ≠ [] → trim L ≠ quitCmd →
      PollLocalUserInput false mapClients (L :: []) =
        (false, mapClients, [], msgUnknownCommand :: [])) ∧
    (trim L = quitCmd →
      PollLocalUserInput false mapClients (L :: q) =
        (true, mapClients, q, msgShuttingDown :: [])) := by
  constructor
  · intro hne hnq
    rw [PollLocalUserInput]
    simp only [Bool.false_eq_true, if_false, if_neg hne, if_neg hnq]
    rfl
  · intro hq
    rw [PollLocalUserInput]
    have hne : trim L ≠ [] := by
      rw [hq]
      intro hc
      exact absurd hc (by decide)
    simp only [Bool.false_eq_true, if_false, if_neg hne, if_pos hq]

/-- Witness for C9: the unknown command "/foo" yields one diagnostic and no
state change; "/quit" sets the flag and leaves the rest of the queue. -/
theorem claim_C9_console_frame_witness :
    PollLocalUserInput false [] (('/' :: 'f' :: 'o' :: 'o' :: []) :: []) =
      (false, [], [], msgUnknownCommand :: []) ∧
    PollLocalUserInput false [] (quitCmd :: ('x' :: []) :: []) =
      (true, [], ('x' :: []) :: [], msgShuttingDown :: []) :=
  ⟨(claim_C9_console_frame [] ('/' :: 'f' :: 'o' :: 'o' :: []) []).1
      (by decide) (by decide),
   (claim_C9_console_frame [] quitCmd (('x' :: []) :: [])).2 (by decide)⟩

/-! Claims about broadcasting. -/

theorem filter_ne_length (s : Nat) (l : List Nat) (hnd : l.Nodup) (hm : s ∈ l) :
    (l.filter (fun c => c ≠ s)).length + 1 = l.length := by
  induction l with
  | nil => cases hm
  | cons a t ih =>
      rcases List.mem_cons.mp hm with rfl | hmt
      · have hnotin : s ∉ t := (List.nodup_cons.mp hnd).1
        have hto : t.filter (fun c => c ≠ s) = t :=
          List.filter_eq_self.mpr (fun b hb => by
            simp only [decide_eq_true_eq]
            rintro rfl
            exact hnotin hb)
        simp [List.filter_cons, hto]
        intro a ha hc
        exact hnotin (hc ▸ ha)
      · have ha : a ≠ s := by
          rintro rfl
          exact (List.nodup_cons.mp hnd).1 hmt
        have hlen := ih (List.nodup_cons.mp hnd).2 hmt
        simp [List.filter_cons, ha] at hlen ⊢
        omega

/-- C2: with the sender registered and N other registered clients, processing
a received message performs exactly N send attempts, one to each registered
client other than the sender, none to the sender, and the recipients are
drawn from (and only from) the Connection Registry the broadcast iterates. -/
theorem claim_C2_broadcast_count (mapClients : List Nat) (sender N : Nat)
    (payload : List Char) (hnd : mapClients.Nodup) (hmem : sender ∈ mapClients)
    (hlen : mapClients.length = N + 1) :
    processIncomingMessage mapClients ⟨sender, payload⟩ =
      some (SendStringToAllClients mapClients sender) ∧
    (SendStringToAllClients mapClients sender).length = N ∧
    sender ∉ SendStringToAllClients mapClients sender ∧
    (∀ c ∈ mapClients, c ≠ sender → c ∈ SendStringToAllClients mapClients sender) ∧
    (∀ c ∈ SendStringToAllClients mapClients sender, c ∈ mapClients) ∧
    (SendStringToAllClients mapClients sender).Nodup := by
  refine ⟨by simp [processIncomingMessage, hmem], ?_, ?_, ?_, ?_, ?_⟩
  · have := filter_ne_length sender mapClients hnd hmem
    unfold SendStringToAllClients
    omega
  · intro hc
    have := (List.mem_filter.mp hc).2
    simp at this
  · intro c hc hne
    exact List.mem_filter.mpr ⟨hc, by simpa using hne⟩
  · intro c hc
    exact (List.mem_filter.mp hc).1
  · exact hnd.filter _

/-- Witness for C2: registry with sender 1 and two other clients 2, 3. -/
theorem claim_C2_broadcast_count_witness :
    processIncomingMessage (1 :: 2 :: 3 :: []) ⟨1, []⟩ =
      some (SendStringToAllClients (1 :: 2 :: 3 :: []) 1) ∧
    (SendStringToAllClients (1 :: 2 :: 3 :: []) 1).length = 2 ∧
    1 ∉ SendStringToAllClients (1 :: 2 :: 3 :: []) 1 ∧
    (∀ c ∈ (1 :: 2 :: 3 :: [] : List Nat), c ≠ 1 →
      c ∈ SendStringToAllClients (1 :: 2 :: 3 :: []) 1) ∧
    (∀ c ∈ SendStringToAllClients (1 :: 2 :: 3 :: []) 1, c ∈ (1 :: 2 :: 3 :: [] : List Nat)) ∧
    (SendStringToAllClients (1 :: 2 :: 3 :: []) 1).Nodup :=
  claim_C2_broadcast_count (1 :: 2 :: 3 :: []) 1 2 [] (by decide) (by decide) (by decide)

/-- C3: the unchecked dereference of the registry lookup in
PollIncomingMessages is well-defined exactly when the sender is registered;
under the registry invariant (registry equals the transport's open accepted
set) a message arriving on an open connection always finds its sender, so the
undefined branch is unreachable and the exclusion handle passed to the
broadcast is the sender's own handle. -/
theorem claim_C3_sender_lookup_safe (mapClients openConns : List Nat)
    (msg : IncomingMsg) (hinv : mapClients = openConns)
    (hopen : msg.conn ∈ openConns) :
    processIncomingMessage mapClients msg =
      some (SendStringToAllClients mapClients msg.conn) := by
  subst hinv
  simp [processIncomingMessage, hopen]

/-- Witness for C3: a message from connection 2 with registry and open set
both equal to the two-element list. -/
theorem claim_C3_sender_lookup_safe_witness :
    processIncomingMessage (1 :: 2 :: []) ⟨2, []⟩ =
      some (SendStringToAllClients (1 :: 2 :: []) 2) :=
  claim_C3_sender_lookup_safe (1 :: 2 :: []) (1 :: 2 :: []) ⟨2, []⟩ rfl (by decide)

/-! Claims about the connection-state-change handler. -/

/-- C1 counterexample: the claimed invariant is not preserved by the
Connecting branch when AcceptConnection fails — starting from an empty
registry agreeing with an empty open set, handling a Connecting event for
handle 1 whose accept fails leaves handle 1 registered while the transport
connection is closed, so the registry and the open-accepted set disagree. -/
theorem claim_C1_counterexample :
    ¬ ((OnSteamNetConnectionStatusChanged [] ⟨1, .Connecting, .None⟩ false true).1 =
        transportOpenAfter [] ⟨1, .Connecting, .None⟩ false true) := by
  decide

/-- C1 (amended): the registry-transport correspondence is preserved by every
state-change event, provided that on each Connecting event both
AcceptConnection and SetConnectionPollGroup succeed, and that every closing
connection (ClosedByPeer / ProblemDetectedLocally) had previously reached
Connected.  On the Connecting-failure path, and for a connection closed
straight out of Connecting, the handler leaves a stale registry entry and the
invariant breaks. -/
theorem claim_C1_invariant_preserved (reg : List Nat) (ev : ConnEvent)
    (a p : Bool)
    (hconn : ev.state = .Connecting → a = true ∧ p = true)
    (hclosed : ev.state = .ClosedByPeer ∨ ev.state = .ProblemDetectedLocally →
      ev.oldState = .Connected) :
    (OnSteamNetConnectionStatusChanged reg ev a p).1 =
      transportOpenAfter reg ev a p := by
  obtain ⟨h, st, old⟩ := ev
  cases st with
  | None => rfl
  | Connecting =>
      obtain ⟨rfl, rfl⟩ := hconn rfl
      simp [OnSteamNetConnectionStatusChanged, transportOpenAfter]
  | Connected => rfl
  | ClosedByPeer =>
      have hold : old = .Connected := hclosed (Or.inl rfl)
      simp [OnSteamNetConnectionStatusChanged, transportOpenAfter, hold]
  | ProblemDetectedLocally =>
      have hold : old = .Connected := hclosed (Or.inr rfl)
      simp [OnSteamNetConnectionStatusChanged, transportOpenAfter, hold]

/-- Witness for C1 (amended): a successful Connecting event for handle 7 on
registry with client 5 keeps the registry equal to the open set. -/
theorem claim_C1_invariant_preserved_witness :
    (OnSteamNetConnectionStatusChanged (5 :: []) ⟨7, .Connecting, .None⟩ true true).1 =
      transportOpenAfter (5 :: []) ⟨7, .Connecting, .None⟩ true true :=
  claim_C1_invariant_preserved (5 :: []) ⟨7, .Connecting, .None⟩ true true
    (by decide) (by decide)

/-- C4: on a Connecting event where AcceptConnection or SetConnectionPollGroup
fails, the handler's entire output is the just-inserted registry (the record
remains registered) together with exactly one CloseConnection call with reason
0, null debug string and no linger; in particular the handle is still in the
registry afterwards. -/
theorem claim_C4_connecting_failure (reg : List Nat) (ev : ConnEvent)
    (a p : Bool) (hst : ev.state = .Connecting) (hfail : a = false ∨ p = false) :
    OnSteamNetConnectionStatusChanged reg ev a p =
      (List.insert ev.hConn reg, ⟨ev.hConn, 0, false, false⟩ :: []) ∧
    ev.hConn ∈ (OnSteamNetConnectionStatusChanged reg ev a p).1 := by
  obtain ⟨h, st, old⟩ := ev
  cases hst
  have heq : OnSteamNetConnectionStatusChanged reg ⟨h, .Connecting, old⟩ a p =
      (List.insert h reg, ⟨h, 0, false, false⟩ :: []) := by
    rcases hfail with rfl | rfl
    · simp [OnSteamNetConnectionStatusChanged]
    · cases a <;> simp [OnSteamNetConnectionStatusChanged]
  exact ⟨heq, by rw [heq]; exact List.mem_insert_self h reg⟩

/-- Witness for C4: accept failure for handle 7 on a registry holding 5. -/
theorem claim_C4_connecting_failure_witness :
    OnSteamNetConnectionStatusChanged (5 :: []) ⟨7, .Connecting, .None⟩ false true =
      (List.insert 7 (5 :: []), ⟨7, 0, false, false⟩ :: []) ∧
    7 ∈ (OnSteamNetConnectionStatusChanged (5 :: []) ⟨7, .Connecting, .None⟩ false true).1 :=
  claim_C4_connecting_failure (5 :: []) ⟨7, .Connecting, .None⟩ false true rfl
    (Or.inl rfl)

/-- C5: on a ClosedByPeer or ProblemDetectedLocally event the handler always
makes exactly one CloseConnection call with reason 0, null debug string and no
linger; the registry entry is erased exactly when the old state was Connected,
so for a registered handle, removal happens if and only if the connection was
previously fully Connected. -/
theorem claim_C5_close_handling (reg : List Nat) (ev : ConnEvent) (a p : Bool)
    (hnd : reg.Nodup)
    (hst : ev.state = .ClosedByPeer ∨ ev.state = .ProblemDetectedLocally) :
    (OnSteamNetConnectionStatusChanged reg ev a p).2 =
      ⟨ev.hConn, 0, false, false⟩ :: [] ∧
    (OnSteamNetConnectionStatusChanged reg ev a p).1 =
      (if ev.oldState = .Connected then reg.erase ev.hConn else reg) ∧
    (ev.hConn ∈ reg →
      (ev.hConn ∉ (OnSteamNetConnectionStatusChanged reg ev a p).1 ↔
        ev.oldState = .Connected)) := by
  obtain ⟨h, st, old⟩ := ev
  have heq : OnSteamNetConnectionStatusChanged reg ⟨h, st, old⟩ a p =
      ((if old = .Connected then reg.erase h else reg),
        ⟨h, 0, false, false⟩ :: []) := by
    rcases hst with rfl | rfl <;> rfl
  refine ⟨by rw [heq], by rw [heq], ?_⟩
  intro hmem
  rw [heq]
  by_cases hold : old = EConnState.Connected
  · subst hold
    rw [if_pos rfl]
    constructor
    · intro _
      rfl
    · intro _ hc
      exact ((hnd.mem_erase_iff).mp hc).1 rfl
  · rw [if_neg hold]
    constructor
    · intro hc
      exact absurd hmem hc
    · intro hc
      exact absurd hc hold

/-- Witness for C5: peer-close of the connected, registered handle 5 erases it
and closes with no linger; the iff instantiates to removal having happened. -/
theorem claim_C5_close_handling_witness :
    (OnSteamNetConnectionStatusChanged (5 :: []) ⟨5, .ClosedByPeer, .Connected⟩ true true).2 =
      ⟨5, 0, false, false⟩ :: [] ∧
    (OnSteamNetConnectionStatusChanged (5 :: []) ⟨5, .ClosedByPeer, .Connected⟩ true true).1 =
      (if (EConnState.Connected : EConnState) = .Connected then (5 :: [] : List Nat).erase 5
        else (5 :: [])) ∧
    ((5 : Nat) ∈ (5 :: [] : List Nat) →
      ((5 : Nat) ∉ (OnSteamNetConnectionStatusChanged (5 :: [])
          ⟨5, .ClosedByPeer, .Connected⟩ true true).1 ↔
        (EConnState.Connected : EConnState) = .Connected)) :=
  claim_C5_close_handling (5 :: []) ⟨5, .ClosedByPeer, .Connected⟩ true true
    (by decide) (Or.inl rfl)

/-! Claims about shutdown and fatal errors. -/

theorem closeAllLoop_length (reg : List Nat) :
    (closeAllLoop reg).length = 2 * reg.length := by
  induction reg with
  | nil => rfl
  | cons a t ih =>
      simp [closeAllLoop, ih]
      omega

theorem closeAllLoop_mem_spec (reg : List Nat) (c : Nat) (hc : c ∈ reg) :
    ∃ i j : Nat, i < j ∧ j < (closeAllLoop reg).length ∧
      (closeAllLoop reg)[i]? = some (Effect.sendMsg c goodbyeMsg) ∧
      (closeAllLoop reg)[j]? = some (Effect.closeConn ⟨c, 0, true, true⟩) := by
  induction reg with
  | nil => cases hc
  | cons a t ih =>
      rcases List.mem_cons.mp hc with rfl | hct
      · refine ⟨0, 1, by omega, ?_, ?_, ?_⟩
        · simp only [closeAllLoop, List.length_cons]
          omega
        · simp [closeAllLoop]
        · simp [closeAllLoop]
      · obtain ⟨i, j, hij, hjl, hi, hj⟩ := ih hct
        refine ⟨i + 2, j + 2, by omega, ?_, ?_, ?_⟩
        · simp only [closeAllLoop, List.length_cons]
          omega
        · simpa [closeAllLoop, List.getElem?_cons_succ] using hi
        · simpa [closeAllLoop, List.getElem?_cons_succ] using hj

/-- C8: on shutdown, for any registered client there are trace positions
i < j, both before the teardown tail, holding the goodbye send to that client
and the linger-mode close of its connection (reason 0, debug string present,
linger true); afterwards the registry is empty, and the trace ends with
closing the listen socket followed by destroying the poll group. -/
theorem claim_C8_shutdown (reg : List Nat) (c : Nat) (hc : c ∈ reg) :
    (∃ i j : Nat, i < j ∧ j < (closeAllLoop reg).length ∧
      (shutdownServer reg).1[i]? = some (Effect.sendMsg c goodbyeMsg) ∧
      (shutdownServer reg).1[j]? = some (Effect.closeConn ⟨c, 0, true, true⟩)) ∧
    (shutdownServer reg).2 = [] ∧
    (shutdownServer reg).1[(closeAllLoop reg).length]? = some Effect.closeListenSocket ∧
    (shutdownServer reg).1[(closeAllLoop reg).length + 1]? = some Effect.destroyPollGroup ∧
    (shutdownServer reg).1.length = (closeAllLoop reg).length + 2 := by
  refine ⟨?_, rfl, ?_, ?_, by simp [shutdownServer]⟩
  · obtain ⟨i, j, hij, hjl, hi, hj⟩ := closeAllLoop_mem_spec reg c hc
    refine ⟨i, j, hij, hjl, ?_, ?_⟩
    · rw [show (shutdownServer reg).1 =
        closeAllLoop reg ++ [Effect.closeListenSocket, Effect.destroyPollGroup] from rfl,
        List.getElem?_append_left (by omega)]
      exact hi
    · rw [show (shutdownServer reg).1 =
        closeAllLoop reg ++ [Effect.closeListenSocket, Effect.destroyPollGroup] from rfl,
        List.getElem?_append_left hjl]
      exact hj
  · rw [show (shutdownServer reg).1 =
      closeAllLoop reg ++ [Effect.closeListenSocket, Effect.destroyPollGroup] from rfl,
      List.getElem?_append_right (Nat.le_refl _)]
    simp
  · rw [show (shutdownServer reg).1 =
      closeAllLoop reg ++ [Effect.closeListenSocket, Effect.destroyPollGroup] from rfl,
      List.getElem?_append_right (by omega)]
    simp

/-- Witness for C8: shutdown of a registry holding clients 1 and 2,
instantiated at client 2. -/
theorem claim_C8_shutdown_witness :
    (∃ i j : Nat, i < j ∧ j < (closeAllLoop (1 :: 2 :: [])).length ∧
      (shutdownServer (1 :: 2 :: [])).1[i]? = some (Effect.sendMsg 2 goodbyeMsg) ∧
      (shutdownServer (1 :: 2 :: [])).1[j]? =
        some (Effect.closeConn ⟨2, 0, true, true⟩)) ∧
    (shutdownServer (1 :: 2 :: [])).2 = [] ∧
    (shutdownServer (1 :: 2 :: [])).1[(closeAllLoop (1 :: 2 :: [])).length]? =
      some Effect.closeListenSocket ∧
    (shutdownServer (1 :: 2 :: [])).1[(closeAllLoop (1 :: 2 :: [])).length + 1]? =
      some Effect.destroyPollGroup ∧
    (shutdownServer (1 :: 2 :: [])).1.length = (closeAllLoop (1 :: 2 :: [])).length + 2 :=
  claim_C8_shutdown (1 :: 2 :: []) 2 (by decide)

/-- C10: the invalid listen socket handle, the invalid poll group handle (with
a valid listen socket), and a negative return from the message-receive call
each reach FatalError, and FatalError terminates the process (it logs at the
Bug severity, on which DebugOutput nukes the process). -/
theorem claim_C10_fatal_errors (hPollGroup hSock : Nat) (numMsgs : Int)
    (hn : numMsgs < 0) :
    runStartup k_HSteamListenSocket_Invalid hPollGroup = .fatalError ∧
    runStartup (hSock + 1) k_HSteamNetPollGroup_Invalid = .fatalError ∧
    receiveDispatch numMsgs = .fatalError ∧
    fatalErrorNukesProcess = true := by
  refine ⟨rfl, ?_, ?_, rfl⟩
  · simp [runStartup, k_HSteamListenSocket_Invalid, k_HSteamNetPollGroup_Invalid]
  · have hne : numMsgs ≠ 0 := by omega
    simp [receiveDispatch, hne, hn]

/-- Witness for C10: poll group handle 3, listen socket handle 4, receive
return -1. -/
theorem claim_C10_fatal_errors_witness :
    runStartup k_HSteamListenSocket_Invalid 3 = .fatalError ∧
    runStartup (4 + 1) k_HSteamNetPollGroup_Invalid = .fatalError ∧
    receiveDispatch (-1) = .fatalError ∧
    fatalErrorNukesProcess = true :=
  claim_C10_fatal_errors 3 4 (-1) (by decide)

end ExampleChat
